import Mathlib

/-!
Shallow embedding of src/opensteer/src/Obstacle.cpp (OpenSteer obstacle
avoidance: obstacle shapes, path-intersection queries, group scan, and the
shared steering heuristic).  C++ `float` arithmetic is idealized as real
arithmetic.  The repository ships only Obstacle.cpp; the supporting header
(Vec3 operations, LocalSpace frame transforms, the AbstractVehicle accessor
surface, and the obstacle constructors' default `seenFrom` tag) is modelled
from the specification, as marked on each such definition.
-/

namespace OpenSteer

open Classical

noncomputable section

/-- Modelled from the spec: 3D float vector with component extraction
(spec section 3, "Vector3"). -/
@[ext]
structure Vec3 where
  x : ℝ
  y : ℝ
  z : ℝ

instance : Zero Vec3 := ⟨⟨0, 0, 0⟩⟩

instance : Add Vec3 := ⟨fun a b => ⟨a.x + b.x, a.y + b.y, a.z + b.z⟩⟩

instance : Sub Vec3 := ⟨fun a b => ⟨a.x - b.x, a.y - b.y, a.z - b.z⟩⟩

instance : Neg Vec3 := ⟨fun a => ⟨-a.x, -a.y, -a.z⟩⟩

/-- Vector times scalar, as in the C++ `Vec3 operator* (float)`. -/
instance : HMul Vec3 ℝ Vec3 := ⟨fun v s => ⟨v.x * s, v.y * s, v.z * s⟩⟩

@[simp] theorem Vec3.zero_def : (0 : Vec3) = ⟨0, 0, 0⟩ := rfl

@[simp] theorem Vec3.add_def (a b : Vec3) :
    a + b = ⟨a.x + b.x, a.y + b.y, a.z + b.z⟩ := rfl

@[simp] theorem Vec3.sub_def (a b : Vec3) :
    a - b = ⟨a.x - b.x, a.y - b.y, a.z - b.z⟩ := rfl

@[simp] theorem Vec3.neg_def (a : Vec3) : -a = ⟨-a.x, -a.y, -a.z⟩ := rfl

@[simp] theorem Vec3.smul_def (v : Vec3) (s : ℝ) :
    v * s = ⟨v.x * s, v.y * s, v.z * s⟩ := rfl

/-- Modelled from the spec: dot product (spec sections 3 and 6). -/
def Vec3.dot (a b : Vec3) : ℝ := a.x * b.x + a.y * b.y + a.z * b.z

/-- Modelled from the spec: vector length (spec section 6 names length and a
square-root function among the consumed geometry operations). -/
def Vec3.length (v : Vec3) : ℝ := Real.sqrt (v.dot v)

/-- Modelled from the spec: normalize (spec sections 3 and 6).  Division of a
zero-length vector by its zero length yields the zero vector here, matching
the convention the spec's centered-approach test case relies on. -/
def Vec3.normalize (v : Vec3) : Vec3 :=
  ⟨v.x / v.length, v.y / v.length, v.z / v.length⟩

/-- Modelled from the spec: component of `v` parallel to a unit basis vector
(spec section 4.4, the forward-aligned component that gets discarded). -/
def Vec3.parallelComponent (v unitBasis : Vec3) : Vec3 :=
  unitBasis * (v.dot unitBasis)

/-- Modelled from the spec: component of `v` perpendicular to a unit basis
vector (spec section 4.4, "project `steerHint` onto the plane perpendicular
to the vehicle's forward direction"). -/
def Vec3.perpendicularComponent (v unitBasis : Vec3) : Vec3 :=
  v - v.parallelComponent unitBasis

/-- `Vec3::forward`, the local +Z axis, used by the rectangle's
parallel-path test. -/
def Vec3.forwardAxis : Vec3 := ⟨0, 0, 1⟩

/-- `square (x) = x * x` as used by the sphere quadratic in Obstacle.cpp. -/
def square (x : ℝ) : ℝ := x * x

/-- The obstacle `seenFrom` tag (spec section 3 and glossary). -/
inductive seenFromState where
  | outside
  | inside
  | both
deriving DecidableEq

/-- Modelled from the spec: the frame transform of a world direction into a
local frame whose axes are `side`, `up`, `forward` (spec section 6,
`localizeDirection`). -/
def localizeDirectionIn (side up forward g : Vec3) : Vec3 :=
  ⟨g.dot side, g.dot up, g.dot forward⟩

/-- Modelled from the spec: the frame transform of a world point into a local
frame positioned at `position` (spec section 6, `localizePosition`). -/
def localizePositionIn (side up forward position g : Vec3) : Vec3 :=
  localizeDirectionIn side up forward (g - position)

/-- Modelled from the spec: the inverse frame transform of a local direction
back to world space (spec section 4.3, "transform results back to world
space"). -/
def globalizeDirectionIn (side up forward l : Vec3) : Vec3 :=
  side * l.x + up * l.y + forward * l.z

/-- Modelled from the spec: the inverse frame transform of a local point back
to world space. -/
def globalizePositionIn (side up forward position l : Vec3) : Vec3 :=
  position + globalizeDirectionIn side up forward l

/-- Modelled from the spec: the vehicle surface consumed by Obstacle.cpp
(spec section 6): `position`, `forward`, `speed`, `radius`, `maxForce`, and
the frame transforms into vehicle-local space (forward = local +Z), which
use the vehicle's `side`/`up`/`forward` axes. -/
structure AbstractVehicle where
  position : Vec3
  side : Vec3
  up : Vec3
  forward : Vec3
  speed : ℝ
  radius : ℝ
  maxForce : ℝ

/-- Modelled from the spec: `localizeDirection` of the vehicle. -/
def AbstractVehicle.localizeDirection (v : AbstractVehicle) (g : Vec3) : Vec3 :=
  localizeDirectionIn v.side v.up v.forward g

/-- Modelled from the spec: `localizePosition` of the vehicle. -/
def AbstractVehicle.localizePosition (v : AbstractVehicle) (g : Vec3) : Vec3 :=
  localizePositionIn v.side v.up v.forward v.position g

/-- The three obstacle shape variants of Obstacle.cpp, with the fields their
intersection routines read.  `seenFrom` defaults are the constructing code's
concern; the box's synthesized faces carry `outside` (modelled from the
spec: faces are "oriented so its plane normal points outward" and follow the
solid-obstacle convention). -/
inductive Obstacle where
  | sphere (radius : ℝ) (center : Vec3) (seenFrom : seenFromState)
  | rectangle (width height : ℝ) (side up forward position : Vec3)
      (seenFrom : seenFromState)
  | box (width height depth : ℝ) (side up forward position : Vec3)
      (seenFrom : seenFromState)

/-- `Obstacle::PathIntersection` from Obstacle.h as used by Obstacle.cpp:
the transient query-result record.  The C++ back-reference pointer to the
obstacle hit is modelled as an `Option Obstacle` value. -/
structure PathIntersection where
  intersect : Bool
  obstacle : Option Obstacle
  distance : ℝ
  surfacePoint : Vec3
  surfaceNormal : Vec3
  steerHint : Vec3

instance : Inhabited PathIntersection := ⟨⟨false, none, 0, 0, 0, 0⟩⟩

/-- The coefficient `b = -2 * lc.z` of the sphere's line-sphere quadratic
(Obstacle.cpp line 167), with `lc` the sphere center localized into the
vehicle's frame. -/
def sphereQuadB (center : Vec3) (vehicle : AbstractVehicle) : ℝ :=
  -2 * (vehicle.localizePosition center).z

/-- The coefficient `c = |lc|^2 - r^2` of the sphere's line-sphere quadratic
(Obstacle.cpp lines 166-168), with `r = radius + vehicle.radius`. -/
def sphereQuadC (radius : ℝ) (center : Vec3) (vehicle : AbstractVehicle) : ℝ :=
  let lc := vehicle.localizePosition center
  let r := radius + vehicle.radius
  square lc.x + square lc.y + square lc.z - square r

/-- The root `p = (-b + sqrt d) / 2` of the sphere quadratic (Obstacle.cpp
lines 177-178). -/
def sphereRootP (radius : ℝ) (center : Vec3) (vehicle : AbstractVehicle) : ℝ :=
  let b := sphereQuadB center vehicle
  let c := sphereQuadC radius center vehicle
  (-b + Real.sqrt ((b * b) - (4 * c))) / 2

/-- The root `q = (-b - sqrt d) / 2` of the sphere quadratic (Obstacle.cpp
lines 177-179). -/
def sphereRootQ (radius : ℝ) (center : Vec3) (vehicle : AbstractVehicle) : ℝ :=
  let b := sphereQuadB center vehicle
  let c := sphereQuadC radius center vehicle
  (-b - Real.sqrt ((b * b) - (4 * c))) / 2

/-- `SphericalObstacle::findIntersectionWithVehiclePath` (Obstacle.cpp lines
144-202), with the quadratic's coefficients and roots written through the
named definitions above.  The routine mutates its out-parameter `pi`: early
returns leave every field but `intersect` as it was, so the embedding
threads `pi` through. -/
def sphericalFind (radius : ℝ) (center : Vec3) (seenFrom : seenFromState)
    (vehicle : AbstractVehicle) (pi : PathIntersection) : PathIntersection :=
  let b := sphereQuadB center vehicle
  let c := sphereQuadC radius center vehicle
  let d := (b * b) - (4 * c)
  if d < 0 then { pi with intersect := false }
  else
    let p := sphereRootP radius center vehicle
    let q := sphereRootQ radius center vehicle
    if (p < 0) ∧ (q < 0) then { pi with intersect := false }
    else
      let dist :=
        if (p > 0) ∧ (q > 0) then (if p < q then p else q)
        else if seenFrom = seenFromState.outside then 0
        else if p > 0 then p else q
      let surfacePoint := vehicle.position + (vehicle.forward * dist)
      { intersect := true
        obstacle := some (Obstacle.sphere radius center seenFrom)
        distance := dist
        surfacePoint := surfacePoint
        surfaceNormal := (surfacePoint - center).normalize
        steerHint := (surfacePoint - center).normalize }

/-- `RectangleObstacle::findIntersectionWithVehiclePath` (Obstacle.cpp lines
210-255). -/
def rectangleFind (width height : ℝ) (side up forward position : Vec3)
    (seenFrom : seenFromState) (vehicle : AbstractVehicle)
    (pi : PathIntersection) : PathIntersection :=
  let lp := localizePositionIn side up forward position vehicle.position
  let ld := localizeDirectionIn side up forward vehicle.forward
  if ld.dot Vec3.forwardAxis = 0 then { pi with intersect := false }
  else if (lp.z > 0) ∧ (ld.z > 0) then { pi with intersect := false }
  else if (lp.z < 0) ∧ (ld.z < 0) then { pi with intersect := false }
  else if (seenFrom = seenFromState.outside) ∧ (lp.z < 0) then
    { pi with intersect := false }
  else if (seenFrom = seenFromState.inside) ∧ (lp.z > 0) then
    { pi with intersect := false }
  else
    let ix := lp.x - (ld.x * lp.z / ld.z)
    let iy := lp.y - (ld.y * lp.z / ld.z)
    let planeIntersection : Vec3 := ⟨ix, iy, 0⟩
    let r := vehicle.radius
    let w := r + (width * 0.5)
    let h := r + (height * 0.5)
    if (ix > w) ∨ (ix < -w) ∨ (iy > h) ∨ (iy < -h) then
      { pi with intersect := false }
    else
      let pin := planeIntersection.normalize
      let gpin := globalizeDirectionIn side up forward pin
      let sideSign : ℝ := if lp.z > 0 then 1 else -1
      let opposingNormal := forward * sideSign
      { intersect := true
        obstacle := some (Obstacle.rectangle width height side up forward
          position seenFrom)
        distance := (lp - planeIntersection).length
        steerHint := opposingNormal + gpin
        surfacePoint := globalizePositionIn side up forward position
          planeIntersection
        surfaceNormal := opposingNormal }

/-- One iteration of the group-scan loop body (Obstacle.cpp lines 96-108):
run the obstacle's query into the scratch record, then replace `nearest`
when this is the first record stored or a strictly nearer intersection.
State is the pair `(nearest, next)`. -/
def scanStep {α : Type} (find : α → PathIntersection → PathIntersection)
    (st : PathIntersection × PathIntersection) (o : α) :
    PathIntersection × PathIntersection :=
  let next := find o st.2
  let firstFound := st.1.intersect = false
  let nearestFound := (next.intersect = true) ∧ (next.distance < st.1.distance)
  if firstFound ∨ nearestFound then (next, next) else (st.1, next)

/-- `Obstacle::firstPathIntersectionWithObstacleGroup` (Obstacle.cpp lines
85-109), parametric in the per-obstacle query so the box can reuse it on its
faces.  Both records have their `intersect` flag cleared before the loop;
the rest of their fields are whatever the caller passed in, as in the C++
out-parameters. -/
def firstPathIntersectionWithObstacleGroup {α : Type}
    (find : α → PathIntersection → PathIntersection) (obstacles : List α)
    (nearest next : PathIntersection) :
    PathIntersection × PathIntersection :=
  List.foldl (scanStep find)
    ({ nearest with intersect := false }, { next with intersect := false })
    obstacles

/-- The per-face query used by `BoxObstacle::findIntersectionWithVehiclePath`:
each synthesized face is a `RectangleObstacle`.  (The box's face list holds
only rectangles; other constructors cannot occur there.) -/
def rectFaceFind (vehicle : AbstractVehicle) (o : Obstacle)
    (pi : PathIntersection) : PathIntersection :=
  match o with
  | Obstacle.rectangle w h s u f p sf => rectangleFind w h s u f p sf vehicle pi
  | _ => { pi with intersect := false }

/-- The six rectangular faces synthesized by
`BoxObstacle::findIntersectionWithVehiclePath` (Obstacle.cpp lines 281-296),
in source order: front, back, side, other side, top, bottom. -/
def boxFaces (w h d : ℝ) (s u f p : Vec3) : List Obstacle :=
  let hw := s * (0.5 * w)
  let hh := u * (0.5 * h)
  let hd := f * (0.5 * d)
  [ Obstacle.rectangle w h s u f (p + hd) seenFromState.outside
  , Obstacle.rectangle w h (-s) u (-f) (p - hd) seenFromState.outside
  , Obstacle.rectangle d h (-f) u s (p + hw) seenFromState.outside
  , Obstacle.rectangle d h f u (-s) (p - hw) seenFromState.outside
  , Obstacle.rectangle w d s (-f) u (p + hh) seenFromState.outside
  , Obstacle.rectangle w d (-s) (-f) (-u) (p - hh) seenFromState.outside ]

/-- `BoxObstacle::findIntersectionWithVehiclePath` (Obstacle.cpp lines
263-301): group the six faces and delegate to the group scan.  The local
scratch record `next` starts as a fresh (default) record. -/
def boxFind (w h d : ℝ) (s u f p : Vec3) (vehicle : AbstractVehicle)
    (pi : PathIntersection) : PathIntersection :=
  (firstPathIntersectionWithObstacleGroup (rectFaceFind vehicle)
    (boxFaces w h d s u f p) pi default).1

/-- The polymorphic `findIntersectionWithVehiclePath` entry point, dispatching
on the obstacle shape variant. -/
def findIntersectionWithVehiclePath (vehicle : AbstractVehicle) (o : Obstacle)
    (pi : PathIntersection) : PathIntersection :=
  match o with
  | Obstacle.sphere r c sf => sphericalFind r c sf vehicle pi
  | Obstacle.rectangle w h s u f p sf => rectangleFind w h s u f p sf vehicle pi
  | Obstacle.box w h d s u f p _ => boxFind w h d s u f p vehicle pi

/-- `Obstacle::PathIntersection::steerToAvoidIfNeeded` (Obstacle.cpp lines
117-136). -/
def steerToAvoidIfNeeded (pi : PathIntersection) (vehicle : AbstractVehicle)
    (minTimeToCollision : ℝ) : Vec3 :=
  let minDistanceToCollision := minTimeToCollision * vehicle.speed
  if (pi.intersect = true) ∧ (pi.distance < minDistanceToCollision) then
    let lateral := pi.steerHint.perpendicularComponent vehicle.forward
    lateral.normalize * vehicle.maxForce
  else 0

/-! ### Vector algebra lemmas -/

theorem Vec3.add_dot (a b c : Vec3) : (a + b).dot c = a.dot c + b.dot c := by
  simp only [Vec3.add_def, Vec3.dot]; ring

theorem Vec3.smul_dot (a c : Vec3) (r : ℝ) : (a * r).dot c = r * (a.dot c) := by
  simp only [Vec3.smul_def, Vec3.dot]; ring

theorem Vec3.neg_dot (a c : Vec3) : (-a).dot c = -(a.dot c) := by
  simp only [Vec3.neg_def, Vec3.dot]; ring

theorem Vec3.dot_comm (a b : Vec3) : a.dot b = b.dot a := by
  simp only [Vec3.dot]; ring

theorem Vec3.sub_dot (a b c : Vec3) : (a - b).dot c = a.dot c - b.dot c := by
  simp only [Vec3.sub_def, Vec3.dot]; ring

theorem Vec3.dot_self_nonneg (v : Vec3) : 0 ≤ v.dot v := by
  simp only [Vec3.dot]
  nlinarith [mul_self_nonneg v.x, mul_self_nonneg v.y, mul_self_nonneg v.z]

theorem Vec3.dot_self_pos (v : Vec3) (h : v ≠ 0) : 0 < v.dot v := by
  rcases lt_or_eq_of_le (Vec3.dot_self_nonneg v) with hlt | heq
  · exact hlt
  · exfalso
    apply h
    have hx : v.x * v.x = 0 ∧ v.y * v.y = 0 ∧ v.z * v.z = 0 := by
      simp only [Vec3.dot] at heq
      refine ⟨?_, ?_, ?_⟩ <;>
        nlinarith [mul_self_nonneg v.x, mul_self_nonneg v.y, mul_self_nonneg v.z]
    ext <;> simp only [Vec3.zero_def] <;>
      [exact mul_self_eq_zero.mp hx.1; exact mul_self_eq_zero.mp hx.2.1;
       exact mul_self_eq_zero.mp hx.2.2]

theorem Vec3.length_nonneg (v : Vec3) : 0 ≤ v.length := Real.sqrt_nonneg _

theorem Vec3.length_pos (v : Vec3) (h : v ≠ 0) : 0 < v.length :=
  Real.sqrt_pos.mpr (Vec3.dot_self_pos v h)

theorem Vec3.length_mul_self (v : Vec3) : v.length * v.length = v.dot v :=
  Real.mul_self_sqrt (Vec3.dot_self_nonneg v)

theorem Vec3.length_normalize (v : Vec3) (h : v ≠ 0) : v.normalize.length = 1 := by
  have hL : 0 < v.length := Vec3.length_pos v h
  have hsq : v.length * v.length = v.dot v := Vec3.length_mul_self v
  have hdot : v.normalize.dot v.normalize = 1 := by
    simp only [Vec3.normalize, Vec3.dot] at *
    field_simp
    linarith [hsq]
  simp only [Vec3.length, hdot, Real.sqrt_one]

theorem Vec3.normalize_ne_zero (v : Vec3) (h : v ≠ 0) : v.normalize ≠ 0 := by
  intro hz
  have := Vec3.length_normalize v h
  rw [hz] at this
  simp only [Vec3.length, Vec3.zero_def, Vec3.dot] at this
  norm_num at this

theorem Vec3.length_smul (v : Vec3) (c : ℝ) : (v * c).length = |c| * v.length := by
  have h1 : (v * c).dot (v * c) = (c * c) * (v.dot v) := by
    simp only [Vec3.smul_def, Vec3.dot]; ring
  simp only [Vec3.length, h1]
  rw [show (c * c) * (v.dot v) = (c * c) * (v.dot v) from rfl,
    Real.sqrt_mul (mul_self_nonneg c), Real.sqrt_mul_self_eq_abs]

theorem Vec3.smul_ne_zero_of_ne (v : Vec3) (c : ℝ) (hv : v ≠ 0) (hc : c ≠ 0) :
    v * c ≠ 0 := by
  intro h
  apply hv
  have hx := congrArg Vec3.x h
  have hy := congrArg Vec3.y h
  have hz := congrArg Vec3.z h
  simp only [Vec3.smul_def, Vec3.zero_def] at hx hy hz
  ext <;> simp only [Vec3.zero_def]
  · exact (mul_eq_zero.mp hx).resolve_right hc
  · exact (mul_eq_zero.mp hy).resolve_right hc
  · exact (mul_eq_zero.mp hz).resolve_right hc

theorem Vec3.neg_length (v : Vec3) : (-v).length = v.length := by
  have : (-v).dot (-v) = v.dot v := by simp only [Vec3.neg_def, Vec3.dot]; ring
  simp only [Vec3.length, this]

theorem sqrt_of_sq (a b : ℝ) (hb : 0 ≤ b) (h : b * b = a) : Real.sqrt a = b := by
  rw [← h, Real.sqrt_mul_self hb]

theorem Vec3.normalize_eq_smul (v : Vec3) : v.normalize = v * (1 / v.length) := by
  simp only [Vec3.normalize, Vec3.smul_def]
  ext <;> ring

theorem Vec3.dot_self_of_length_one (f : Vec3) (h : f.length = 1) : f.dot f = 1 := by
  have := Real.mul_self_sqrt (Vec3.dot_self_nonneg f)
  rw [show Real.sqrt (f.dot f) = f.length from rfl, h] at this
  linarith

theorem Vec3.perp_dot_eq_zero (v f : Vec3) (hf : f.length = 1) :
    (v.perpendicularComponent f).dot f = 0 := by
  have hff : f.dot f = 1 := Vec3.dot_self_of_length_one f hf
  simp only [Vec3.perpendicularComponent, Vec3.parallelComponent, Vec3.sub_dot,
    Vec3.smul_dot, hff]
  ring

/-! ### Stability of the query routines in their incoming record

Each `findIntersectionWithVehiclePath` only reads its out-parameter to leave
its fields alone on the no-intersection paths: the `intersect` flag it
produces never depends on the incoming record, and on a hit the whole
record is freshly written. -/

/-- A query function whose `intersect` flag ignores the incoming record and
which fully overwrites the record on a hit. -/
def FindStable {α : Type} (find : α → PathIntersection → PathIntersection) : Prop :=
  ∀ (o : α) (pi1 pi2 : PathIntersection),
    ((find o pi1).intersect = (find o pi2).intersect) ∧
    ((find o pi1).intersect = true → find o pi1 = find o pi2)

theorem sphericalFind_indep (radius : ℝ) (center : Vec3) (sf : seenFromState)
    (v : AbstractVehicle) (pi1 pi2 : PathIntersection) :
    ((sphericalFind radius center sf v pi1).intersect =
      (sphericalFind radius center sf v pi2).intersect) ∧
    ((sphericalFind radius center sf v pi1).intersect = true →
      sphericalFind radius center sf v pi1 = sphericalFind radius center sf v pi2) := by
  simp only [sphericalFind]
  split_ifs <;> simp

theorem rectangleFind_indep (w h : ℝ) (s u f p : Vec3) (sf : seenFromState)
    (v : AbstractVehicle) (pi1 pi2 : PathIntersection) :
    ((rectangleFind w h s u f p sf v pi1).intersect =
      (rectangleFind w h s u f p sf v pi2).intersect) ∧
    ((rectangleFind w h s u f p sf v pi1).intersect = true →
      rectangleFind w h s u f p sf v pi1 = rectangleFind w h s u f p sf v pi2) := by
  simp only [rectangleFind]
  split_ifs <;> simp

theorem rectFaceFind_stable (v : AbstractVehicle) : FindStable (rectFaceFind v) := by
  intro o pi1 pi2
  match o with
  | Obstacle.rectangle w h s u f p sf =>
    exact rectangleFind_indep w h s u f p sf v pi1 pi2
  | Obstacle.sphere r c sf => simp [rectFaceFind]
  | Obstacle.box w h d s u f p sf => simp [rectFaceFind]

/-- The group scan from two starting states whose `nearest` flags are both
clear: the final `intersect` flags agree, and when an intersection is found
the final records agree.  The threaded scratch records do not influence a
stable query's output. -/
theorem scan_indep {α : Type} (find : α → PathIntersection → PathIntersection)
    (hF : FindStable find) :
    ∀ (obs : List α) (st1 st2 : PathIntersection × PathIntersection),
      st1.1.intersect = false → st2.1.intersect = false →
      ((List.foldl (scanStep find) st1 obs).1.intersect =
        (List.foldl (scanStep find) st2 obs).1.intersect) ∧
      ((List.foldl (scanStep find) st1 obs).1.intersect = true →
        (List.foldl (scanStep find) st1 obs).1 =
          (List.foldl (scanStep find) st2 obs).1) := by
  intro obs
  induction obs with
  | nil =>
    intro st1 st2 h1 h2
    refine ⟨by simp [h1, h2], fun hhit => ?_⟩
    rw [List.foldl_nil] at hhit
    rw [h1] at hhit
    exact absurd hhit (by simp)
  | cons o rest ih =>
    intro st1 st2 h1 h2
    rw [List.foldl_cons, List.foldl_cons]
    have hstep1 : scanStep find st1 o = (find o st1.2, find o st1.2) := by
      simp only [scanStep]
      rw [if_pos (Or.inl h1)]
    have hstep2 : scanStep find st2 o = (find o st2.2, find o st2.2) := by
      simp only [scanStep]
      rw [if_pos (Or.inl h2)]
    rw [hstep1, hstep2]
    by_cases hhit : (find o st1.2).intersect = true
    · have heq : find o st1.2 = find o st2.2 := (hF o st1.2 st2.2).2 hhit
      rw [heq]
      exact ⟨rfl, fun _ => rfl⟩
    · have hflag1 : (find o st1.2).intersect = false := by
        cases hb : (find o st1.2).intersect
        · rfl
        · exact absurd hb hhit
      have hflag2 : (find o st2.2).intersect = false := by
        rw [← (hF o st1.2 st2.2).1]; exact hflag1
      exact ih (find o st1.2, find o st1.2) (find o st2.2, find o st2.2) hflag1 hflag2

theorem boxFind_indep (w h d : ℝ) (s u f p : Vec3) (v : AbstractVehicle)
    (pi1 pi2 : PathIntersection) :
    ((boxFind w h d s u f p v pi1).intersect =
      (boxFind w h d s u f p v pi2).intersect) ∧
    ((boxFind w h d s u f p v pi1).intersect = true →
      boxFind w h d s u f p v pi1 = boxFind w h d s u f p v pi2) := by
  simp only [boxFind, firstPathIntersectionWithObstacleGroup]
  exact scan_indep (rectFaceFind v) (rectFaceFind_stable v) (boxFaces w h d s u f p)
    ({ pi1 with intersect := false }, { (default : PathIntersection) with intersect := false })
    ({ pi2 with intersect := false }, { (default : PathIntersection) with intersect := false })
    rfl rfl

theorem findIntersection_stable (v : AbstractVehicle) :
    FindStable (fun o pi => findIntersectionWithVehiclePath v o pi) := by
  intro o pi1 pi2
  match o with
  | Obstacle.sphere r c sf => exact sphericalFind_indep r c sf v pi1 pi2
  | Obstacle.rectangle w h s u f p sf => exact rectangleFind_indep w h s u f p sf v pi1 pi2
  | Obstacle.box w h d s u f p sf => exact boxFind_indep w h d s u f p v pi1 pi2

/-! ### Characterization of the group scan -/

/-- Scanning onward from a state that already holds an intersection: either
no later obstacle improves on it and `nearest` is kept, or the result is the
record of an obstacle of the remaining list whose distance beats the held one,
is minimal among the remaining intersecting obstacles, and strictly beats
every intersecting obstacle before it. -/
theorem scan_go_true {α : Type} (find : α → PathIntersection → PathIntersection)
    (hF : FindStable find) :
    ∀ (obs : List α) (st : PathIntersection × PathIntersection),
      st.1.intersect = true →
      (((List.foldl (scanStep find) st obs).1 = st.1 ∧
        ∀ o ∈ obs, (find o default).intersect = true →
          st.1.distance ≤ (find o default).distance)
      ∨ (∃ pre oi post, obs = pre ++ oi :: post ∧
          (find oi default).intersect = true ∧
          (List.foldl (scanStep find) st obs).1 = find oi default ∧
          (find oi default).distance < st.1.distance ∧
          (∀ o ∈ obs, (find o default).intersect = true →
            (find oi default).distance ≤ (find o default).distance) ∧
          (∀ o ∈ pre, (find o default).intersect = true →
            (find oi default).distance < (find o default).distance))) := by
  intro obs
  induction obs with
  | nil =>
    intro st hst
    exact Or.inl ⟨rfl, by simp⟩
  | cons o rest ih =>
    intro st hst
    rw [List.foldl_cons]
    have hfalse : ¬ (st.1.intersect = false) := by simp [hst]
    by_cases hhit : (find o st.2).intersect = true
    · have hcanon : find o st.2 = find o default := (hF o st.2 default).2 hhit
      have hhitd : (find o default).intersect = true := hcanon ▸ hhit
      by_cases hlt : (find o st.2).distance < st.1.distance
      · -- the new obstacle replaces the held nearest
        have hstep : scanStep find st o = (find o st.2, find o st.2) := by
          simp only [scanStep]
          rw [if_pos (Or.inr ⟨hhit, hlt⟩)]
        rw [hstep, hcanon]
        rcases ih (find o default, find o default) hhitd with ⟨hkeep, hmin⟩ | hrep
        · refine Or.inr ⟨[], o, rest, by simp, hhitd, hkeep, ?_, ?_, by simp⟩
          · rw [← hcanon]; exact hlt
          · intro o2 ho2 ho2hit
            rcases List.mem_cons.mp ho2 with rfl | hmem
            · exact le_refl _
            · exact hmin o2 hmem ho2hit
        · rcases hrep with ⟨pre, oi, post, hsplit, hoihit, hfold, hoilt, hoimin, hoipre⟩
          refine Or.inr ⟨o :: pre, oi, post, by rw [hsplit]; rfl, hoihit, hfold, ?_, ?_, ?_⟩
          · calc (find oi default).distance < (find o default).distance := hoilt
              _ = (find o st.2).distance := by rw [hcanon]
              _ < st.1.distance := hlt
          · intro o2 ho2 ho2hit
            rcases List.mem_cons.mp ho2 with rfl | hmem
            · exact le_of_lt hoilt
            · exact hoimin o2 hmem ho2hit
          · intro o2 ho2 ho2hit
            rcases List.mem_cons.mp ho2 with rfl | hmem
            · exact hoilt
            · exact hoipre o2 hmem ho2hit
      · -- the new obstacle intersects no nearer: nearest is kept
        have hstep : scanStep find st o = (st.1, find o st.2) := by
          simp only [scanStep]
          rw [if_neg]
          push_neg
          exact ⟨fun hc => absurd hc hfalse, fun _ => le_of_not_lt hlt⟩
        rw [hstep]
        have hle : st.1.distance ≤ (find o default).distance := by
          rw [← hcanon]; exact le_of_not_lt hlt
        rcases ih (st.1, find o st.2) hst with ⟨hkeep, hmin⟩ | hrep
        · refine Or.inl ⟨hkeep, ?_⟩
          intro o2 ho2 ho2hit
          rcases List.mem_cons.mp ho2 with rfl | hmem
          · exact hle
          · exact hmin o2 hmem ho2hit
        · rcases hrep with ⟨pre, oi, post, hsplit, hoihit, hfold, hoilt, hoimin, hoipre⟩
          refine Or.inr ⟨o :: pre, oi, post, by rw [hsplit]; rfl, hoihit, hfold, hoilt, ?_, ?_⟩
          · intro o2 ho2 ho2hit
            rcases List.mem_cons.mp ho2 with rfl | hmem
            · exact le_trans (le_of_lt hoilt) hle
            · exact hoimin o2 hmem ho2hit
          · intro o2 ho2 ho2hit
            rcases List.mem_cons.mp ho2 with rfl | hmem
            · exact lt_of_lt_of_le hoilt hle
            · exact hoipre o2 hmem ho2hit
    · -- the new obstacle does not intersect: nearest is kept as-is
      have hflag : (find o st.2).intersect = false := by
        cases hb : (find o st.2).intersect
        · rfl
        · exact absurd hb hhit
      have hflagd : (find o default).intersect = false := by
        rw [← (hF o st.2 default).1]; exact hflag
      have hstep : scanStep find st o = (st.1, find o st.2) := by
        simp only [scanStep]
        rw [if_neg]
        push_neg
        exact ⟨fun hc => absurd hc hfalse, fun hc => absurd hc (by simp [hflag])⟩
      rw [hstep]
      rcases ih (st.1, find o st.2) hst with ⟨hkeep, hmin⟩ | hrep
      · refine Or.inl ⟨hkeep, ?_⟩
        intro o2 ho2 ho2hit
        rcases List.mem_cons.mp ho2 with rfl | hmem
        · rw [hflagd] at ho2hit; exact absurd ho2hit (by simp)
        · exact hmin o2 hmem ho2hit
      · rcases hrep with ⟨pre, oi, post, hsplit, hoihit, hfold, hoilt, hoimin, hoipre⟩
        refine Or.inr ⟨o :: pre, oi, post, by rw [hsplit]; rfl, hoihit, hfold, hoilt, ?_, ?_⟩
        · intro o2 ho2 ho2hit
          rcases List.mem_cons.mp ho2 with rfl | hmem
          · rw [hflagd] at ho2hit; exact absurd ho2hit (by simp)
          · exact hoimin o2 hmem ho2hit
        · intro o2 ho2 ho2hit
          rcases List.mem_cons.mp ho2 with rfl | hmem
          · rw [hflagd] at ho2hit; exact absurd ho2hit (by simp)
          · exact hoipre o2 hmem ho2hit

/-- Scanning from a state whose `nearest` flag is clear: either no obstacle
of the list intersects and the final flag is still clear, or the result is
the full record of an intersecting obstacle whose distance is minimal among
the intersecting obstacles of the list and which strictly beats every
intersecting obstacle before it in list order. -/
theorem scan_go_false {α : Type} (find : α → PathIntersection → PathIntersection)
    (hF : FindStable find) :
    ∀ (obs : List α) (st : PathIntersection × PathIntersection),
      st.1.intersect = false →
      (((List.foldl (scanStep find) st obs).1.intersect = false ∧
        ∀ o ∈ obs, (find o default).intersect = false)
      ∨ (∃ pre oi post, obs = pre ++ oi :: post ∧
          (find oi default).intersect = true ∧
          (List.foldl (scanStep find) st obs).1 = find oi default ∧
          (∀ o ∈ obs, (find o default).intersect = true →
            (find oi default).distance ≤ (find o default).distance) ∧
          (∀ o ∈ pre, (find o default).intersect = true →
            (find oi default).distance < (find o default).distance))) := by
  intro obs
  induction obs with
  | nil =>
    intro st hst
    exact Or.inl ⟨hst, by simp⟩
  | cons o rest ih =>
    intro st hst
    rw [List.foldl_cons]
    have hstep : scanStep find st o = (find o st.2, find o st.2) := by
      simp only [scanStep]
      rw [if_pos (Or.inl hst)]
    rw [hstep]
    by_cases hhit : (find o st.2).intersect = true
    · have hcanon : find o st.2 = find o default := (hF o st.2 default).2 hhit
      have hhitd : (find o default).intersect = true := hcanon ▸ hhit
      rw [hcanon]
      rcases scan_go_true find hF rest (find o default, find o default) hhitd with
        ⟨hkeep, hmin⟩ | hrep
      · refine Or.inr ⟨[], o, rest, by simp, hhitd, hkeep, ?_, by simp⟩
        intro o2 ho2 ho2hit
        rcases List.mem_cons.mp ho2 with rfl | hmem
        · exact le_refl _
        · exact hmin o2 hmem ho2hit
      · rcases hrep with ⟨pre, oi, post, hsplit, hoihit, hfold, hoilt, hoimin, hoipre⟩
        refine Or.inr ⟨o :: pre, oi, post, by rw [hsplit]; rfl, hoihit, hfold, ?_, ?_⟩
        · intro o2 ho2 ho2hit
          rcases List.mem_cons.mp ho2 with rfl | hmem
          · exact le_of_lt hoilt
          · exact hoimin o2 hmem ho2hit
        · intro o2 ho2 ho2hit
          rcases List.mem_cons.mp ho2 with rfl | hmem
          · exact hoilt
          · exact hoipre o2 hmem ho2hit
    · have hflag : (find o st.2).intersect = false := by
        cases hb : (find o st.2).intersect
        · rfl
        · exact absurd hb hhit
      have hflagd : (find o default).intersect = false := by
        rw [← (hF o st.2 default).1]; exact hflag
      rcases ih (find o st.2, find o st.2) hflag with ⟨hkeep, hnone⟩ | hrep
      · refine Or.inl ⟨hkeep, ?_⟩
        intro o2 ho2
        rcases List.mem_cons.mp ho2 with rfl | hmem
        · exact hflagd
        · exact hnone o2 hmem
      · rcases hrep with ⟨pre, oi, post, hsplit, hoihit, hfold, hoimin, hoipre⟩
        refine Or.inr ⟨o :: pre, oi, post, by rw [hsplit]; rfl, hoihit, hfold, ?_, ?_⟩
        · intro o2 ho2 ho2hit
          rcases List.mem_cons.mp ho2 with rfl | hmem
          · rw [hflagd] at ho2hit; exact absurd ho2hit (by simp)
          · exact hoimin o2 hmem ho2hit
        · intro o2 ho2 ho2hit
          rcases List.mem_cons.mp ho2 with rfl | hmem
          · rw [hflagd] at ho2hit; exact absurd ho2hit (by simp)
          · exact hoipre o2 hmem ho2hit

theorem Vec3.dot_neg (a c : Vec3) : a.dot (-c) = -(a.dot c) := by
  simp only [Vec3.neg_def, Vec3.dot]; ring

theorem Vec3.comb_dot (s u f x : Vec3) (a b c : ℝ) :
    (s * a + u * b + f * c).dot x =
      a * (s.dot x) + b * (u.dot x) + c * (f.dot x) := by
  simp only [Vec3.add_def, Vec3.smul_def, Vec3.dot]; ring

/-- One scan iteration from a state with no stored intersection installs the
query result unconditionally. -/
theorem scanStep_first {α : Type} (find : α → PathIntersection → PathIntersection)
    (st : PathIntersection × PathIntersection) (o : α)
    (hn : st.1.intersect = false) :
    scanStep find st o = (find o st.2, find o st.2) := by
  simp only [scanStep]
  rw [if_pos (Or.inl hn)]

/-- One scan iteration whose query reports no intersection keeps a stored
intersection unchanged. -/
theorem scanStep_keep {α : Type} (find : α → PathIntersection → PathIntersection)
    (st : PathIntersection × PathIntersection) (o : α)
    (hn : st.1.intersect = true)
    (hflag : (find o st.2).intersect = false) :
    scanStep find st o = (st.1, find o st.2) := by
  simp only [scanStep]
  rw [if_neg]
  rintro (hc | ⟨hc, _⟩)
  · rw [hn] at hc
    exact absurd hc (by simp)
  · rw [hflag] at hc
    exact absurd hc (by simp)

/-- A path parallel to the rectangle's plane is rejected by the first guard,
before the division by `ld.z`. -/
theorem rectangleFind_parallel (w h : ℝ) (s u f p : Vec3) (sf : seenFromState)
    (vehicle : AbstractVehicle) (pi0 : PathIntersection)
    (hpar : (localizeDirectionIn s u f vehicle.forward).z = 0) :
    rectangleFind w h s u f p sf vehicle pi0 = { pi0 with intersect := false } := by
  have hdot : (localizeDirectionIn s u f vehicle.forward).dot Vec3.forwardAxis =
      (localizeDirectionIn s u f vehicle.forward).z := by
    simp [Vec3.dot, Vec3.forwardAxis]
  simp only [rectangleFind]
  rw [if_pos (by rw [hdot]; exact hpar)]

/-- A vehicle behind an `outside`-facing rectangle's plane and heading toward
it is rejected by the visibility guard. -/
theorem rectangleFind_outside_behind (w h : ℝ) (s u f p : Vec3)
    (vehicle : AbstractVehicle) (pi0 : PathIntersection)
    (hldz : 0 < (localizeDirectionIn s u f vehicle.forward).z)
    (hlpz : (localizePositionIn s u f p vehicle.position).z < 0) :
    rectangleFind w h s u f p seenFromState.outside vehicle pi0 =
      { pi0 with intersect := false } := by
  have hdot : (localizeDirectionIn s u f vehicle.forward).dot Vec3.forwardAxis =
      (localizeDirectionIn s u f vehicle.forward).z := by
    simp [Vec3.dot, Vec3.forwardAxis]
  simp only [rectangleFind]
  rw [if_neg (by rw [hdot]; exact ne_of_gt hldz),
    if_neg (by rintro ⟨hc, _⟩; exact absurd hc (not_lt.mpr (le_of_lt hlpz))),
    if_neg (by rintro ⟨_, hc⟩; exact absurd hc (not_lt.mpr (le_of_lt hldz))),
    if_pos (by exact ⟨trivial, hlpz⟩)]

/-- A vehicle squarely in front of an `outside`-facing rectangle (offset
`a`, `b` within the bloated extents, height `z0` above the plane, moving
along the inward normal): the full hit record, independent of the incoming
record. -/
theorem rectangleFind_head_on (w h a b z0 : ℝ) (s u f p2 : Vec3)
    (vehicle : AbstractVehicle) (pi0 : PathIntersection)
    (hss : s.dot s = 1) (huu : u.dot u = 1) (hff : f.dot f = 1)
    (hsu : s.dot u = 0) (hsf : s.dot f = 0) (huf : u.dot f = 0)
    (hfwd : vehicle.forward = -f)
    (hrel : vehicle.position - p2 = s * a + u * b + f * z0)
    (hz0 : 0 < z0)
    (ha : |a| ≤ vehicle.radius + w * 0.5)
    (hb : |b| ≤ vehicle.radius + h * 0.5) :
    rectangleFind w h s u f p2 seenFromState.outside vehicle pi0 =
      { intersect := true
        obstacle := some (Obstacle.rectangle w h s u f p2 seenFromState.outside)
        distance := z0
        steerHint := f * (1 : ℝ) +
          globalizeDirectionIn s u f (Vec3.normalize ⟨a, b, 0⟩)
        surfacePoint := globalizePositionIn s u f p2 ⟨a, b, 0⟩
        surfaceNormal := f * (1 : ℝ) } := by
  have hus : u.dot s = 0 := by rw [Vec3.dot_comm]; exact hsu
  have hfs : f.dot s = 0 := by rw [Vec3.dot_comm]; exact hsf
  have hfu : f.dot u = 0 := by rw [Vec3.dot_comm]; exact huf
  have hlp : localizePositionIn s u f p2 vehicle.position = ⟨a, b, z0⟩ := by
    simp only [localizePositionIn, localizeDirectionIn, hrel, Vec3.comb_dot,
      hss, huu, hff, hus, hfs, hfu, hsu, hsf, huf]
    norm_num
  have hld : localizeDirectionIn s u f vehicle.forward = ⟨0, 0, -1⟩ := by
    simp only [localizeDirectionIn, hfwd, Vec3.neg_dot, hfs, hfu, hff]
    norm_num
  have haw := abs_le.mp ha
  have hbw := abs_le.mp hb
  have hsz : Real.sqrt (z0 * z0) = z0 := Real.sqrt_mul_self (le_of_lt hz0)
  have hsz2 : Real.sqrt (z0 ^ 2) = z0 := Real.sqrt_sq (le_of_lt hz0)
  simp only [rectangleFind, hlp, hld]
  rw [if_neg (by norm_num [Vec3.dot, Vec3.forwardAxis]),
    if_neg (by rintro ⟨_, hc⟩; norm_num at hc),
    if_neg (by rintro ⟨hc, _⟩; exact absurd hc (by norm_num [not_lt, le_of_lt hz0])),
    if_neg (by rintro ⟨_, hc⟩; exact absurd hc (by norm_num [not_lt, le_of_lt hz0])),
    if_neg (by rintro ⟨hc, _⟩; simp at hc),
    if_neg (by
      push_neg
      refine ⟨?_, ?_, ?_, ?_⟩ <;>
        linarith [haw.1, haw.2, hbw.1, hbw.2]),
    if_pos (by norm_num [hz0])]
  norm_num [Vec3.sub_def, Vec3.length, Vec3.dot, hsz, hsz2]

theorem Vec3.sub_ne_zero_of_ne (a b : Vec3) (h : a ≠ b) : a - b ≠ 0 := by
  intro hz
  apply h
  have hx := congrArg Vec3.x hz
  have hy := congrArg Vec3.y hz
  have hz3 := congrArg Vec3.z hz
  simp only [Vec3.sub_def, Vec3.zero_def] at hx hy hz3
  ext <;> linarith

/-- On a hit, the rectangle's surface normal `forward * sideSign` is a unit
vector whenever the rectangle frame's forward axis is. -/
theorem rectangleFind_normal_unit (w h : ℝ) (s u f p : Vec3) (sf : seenFromState)
    (v : AbstractVehicle) (pi0 : PathIntersection)
    (hf : f.length = 1)
    (hhit : (rectangleFind w h s u f p sf v pi0).intersect = true) :
    (rectangleFind w h s u f p sf v pi0).surfaceNormal.length = 1 := by
  simp only [rectangleFind] at hhit ⊢
  split_ifs at hhit ⊢ <;>
    first
      | (simp at hhit
         done)
      | (show (f * (1 : ℝ)).length = 1
         rw [Vec3.length_smul, hf]
         norm_num)
      | (show (f * (-1 : ℝ)).length = 1
         rw [Vec3.length_smul, hf]
         norm_num)

/-! ### Claim theorems -/

/-- C4: for a vehicle at the origin with forward = +Z, speed and radius 0,
querying `SphericalObstacle::findIntersectionWithVehiclePath` against a
sphere centered at (0,0,10) with radius 1 yields intersect=true, distance=9,
surfacePoint=(0,0,9) and surfaceNormal=(0,0,-1), whatever the incoming
record held. -/
theorem C4_sphere_example (pi0 : PathIntersection) :
    sphericalFind 1 ⟨0, 0, 10⟩ seenFromState.outside
      ⟨⟨0, 0, 0⟩, ⟨1, 0, 0⟩, ⟨0, 1, 0⟩, ⟨0, 0, 1⟩, 0, 0, 1⟩ pi0 =
      { intersect := true
        obstacle := some (Obstacle.sphere 1 ⟨0, 0, 10⟩ seenFromState.outside)
        distance := 9
        surfacePoint := ⟨0, 0, 9⟩
        surfaceNormal := ⟨0, 0, -1⟩
        steerHint := ⟨0, 0, -1⟩ } := by
  have h4 : Real.sqrt 4 = 2 := sqrt_of_sq 4 2 (by norm_num) (by norm_num)
  simp only [sphericalFind, sphereQuadB, sphereQuadC, sphereRootP, sphereRootQ,
    AbstractVehicle.localizePosition,
    localizePositionIn, localizeDirectionIn, Vec3.dot, Vec3.sub_def, Vec3.add_def,
    Vec3.smul_def, square, Vec3.normalize, Vec3.length]
  norm_num [h4, Real.sqrt_one]

/-- C5: whenever the vehicle's origin lies strictly inside the (vehicle-radius
inflated) sphere — precisely, the quadratic's constant coefficient `c` is
negative, so the two roots straddle zero — the query reports intersect=true;
with `seenFrom = outside` the distance is 0, and otherwise the distance is
the positive root `p`. -/
theorem C5_inside_sphere (radius : ℝ) (center : Vec3) (sf : seenFromState)
    (vehicle : AbstractVehicle) (pi0 : PathIntersection)
    (hinside : sphereQuadC radius center vehicle < 0) :
    (sphericalFind radius center sf vehicle pi0).intersect = true ∧
    0 < sphereRootP radius center vehicle ∧
    sphereRootQ radius center vehicle < 0 ∧
    (sf = seenFromState.outside →
      (sphericalFind radius center sf vehicle pi0).distance = 0) ∧
    (sf ≠ seenFromState.outside →
      (sphericalFind radius center sf vehicle pi0).distance =
        sphereRootP radius center vehicle) := by
  have hd : 0 < (sphereQuadB center vehicle * sphereQuadB center vehicle) -
      (4 * sphereQuadC radius center vehicle) := by
    nlinarith [mul_self_nonneg (sphereQuadB center vehicle)]
  have hsq := Real.mul_self_sqrt (le_of_lt hd)
  have hsnn : 0 ≤ Real.sqrt ((sphereQuadB center vehicle * sphereQuadB center vehicle) -
      (4 * sphereQuadC radius center vehicle)) := Real.sqrt_nonneg _
  have hp : 0 < sphereRootP radius center vehicle := by
    simp only [sphereRootP]
    nlinarith [hinside, hsq, hsnn]
  have hq : sphereRootQ radius center vehicle < 0 := by
    simp only [sphereRootQ]
    nlinarith [hinside, hsq, hsnn]
  have hnotd : ¬ ((sphereQuadB center vehicle * sphereQuadB center vehicle) -
      (4 * sphereQuadC radius center vehicle) < 0) := not_lt.mpr (le_of_lt hd)
  have hnotpq : ¬ ((sphereRootP radius center vehicle < 0) ∧
      (sphereRootQ radius center vehicle < 0)) := by
    push_neg
    intro hplt
    exact absurd hplt (not_lt.mpr (le_of_lt hp))
  have hnotboth : ¬ ((sphereRootP radius center vehicle > 0) ∧
      (sphereRootQ radius center vehicle > 0)) := by
    push_neg
    intro _
    exact le_of_lt hq
  simp only [sphericalFind, if_neg hnotd, if_neg hnotpq, if_neg hnotboth]
  refine ⟨trivial, hp, hq, ?_, ?_⟩
  · intro hsf
    simp only [if_pos hsf]
  · intro hsf
    simp only [if_neg hsf, if_pos hp]

/-- C5 witness: a vehicle at the origin of a radius-2 sphere centered there,
tagged `inside`: the hypothesis `c < 0` holds concretely. -/
theorem C5_inside_sphere_witness :
    (sphericalFind 2 ⟨0, 0, 0⟩ seenFromState.inside
      ⟨⟨0, 0, 0⟩, ⟨1, 0, 0⟩, ⟨0, 1, 0⟩, ⟨0, 0, 1⟩, 1, 0, 1⟩ default).intersect = true ∧
    0 < sphereRootP 2 ⟨0, 0, 0⟩ ⟨⟨0, 0, 0⟩, ⟨1, 0, 0⟩, ⟨0, 1, 0⟩, ⟨0, 0, 1⟩, 1, 0, 1⟩ ∧
    sphereRootQ 2 ⟨0, 0, 0⟩ ⟨⟨0, 0, 0⟩, ⟨1, 0, 0⟩, ⟨0, 1, 0⟩, ⟨0, 0, 1⟩, 1, 0, 1⟩ < 0 ∧
    (seenFromState.inside = seenFromState.outside →
      (sphericalFind 2 ⟨0, 0, 0⟩ seenFromState.inside
        ⟨⟨0, 0, 0⟩, ⟨1, 0, 0⟩, ⟨0, 1, 0⟩, ⟨0, 0, 1⟩, 1, 0, 1⟩ default).distance = 0) ∧
    (seenFromState.inside ≠ seenFromState.outside →
      (sphericalFind 2 ⟨0, 0, 0⟩ seenFromState.inside
        ⟨⟨0, 0, 0⟩, ⟨1, 0, 0⟩, ⟨0, 1, 0⟩, ⟨0, 0, 1⟩, 1, 0, 1⟩ default).distance =
        sphereRootP 2 ⟨0, 0, 0⟩ ⟨⟨0, 0, 0⟩, ⟨1, 0, 0⟩, ⟨0, 1, 0⟩, ⟨0, 0, 1⟩, 1, 0, 1⟩) :=
  C5_inside_sphere 2 ⟨0, 0, 0⟩ seenFromState.inside
    ⟨⟨0, 0, 0⟩, ⟨1, 0, 0⟩, ⟨0, 1, 0⟩, ⟨0, 0, 1⟩, 1, 0, 1⟩ default
    (by norm_num [sphereQuadC, AbstractVehicle.localizePosition, localizePositionIn,
      localizeDirectionIn, Vec3.dot, Vec3.sub_def, square])

/-- C6: when the vehicle's forward direction, localized into the rectangle's
frame, has zero Z component (path exactly parallel to the rectangle's plane),
`RectangleObstacle::findIntersectionWithVehiclePath` returns with
intersect=false and the rest of the record untouched: the parallel check
guards the later division by `ld.z`. -/
theorem C6_parallel_path (w h : ℝ) (s u f p : Vec3) (sf : seenFromState)
    (vehicle : AbstractVehicle) (pi0 : PathIntersection)
    (hpar : (localizeDirectionIn s u f vehicle.forward).z = 0) :
    rectangleFind w h s u f p sf vehicle pi0 = { pi0 with intersect := false } :=
  rectangleFind_parallel w h s u f p sf vehicle pi0 hpar

/-- C1: the group scan leaves `nearest.intersect = false` when no obstacle in
the group reports an intersection; otherwise it stores the full query result
of an intersecting obstacle whose distance is minimal among the group's
intersecting obstacles, and every intersecting obstacle earlier in group
order has strictly greater distance (ties keep the first found). -/
theorem C1_group_scan (v : AbstractVehicle) (obs : List Obstacle)
    (nearest next : PathIntersection) :
    ((∀ o ∈ obs, (findIntersectionWithVehiclePath v o default).intersect = false) →
      (firstPathIntersectionWithObstacleGroup (findIntersectionWithVehiclePath v)
        obs nearest next).1.intersect = false)
    ∧ ((∃ o ∈ obs, (findIntersectionWithVehiclePath v o default).intersect = true) →
      ∃ pre oi post, obs = pre ++ oi :: post ∧
        (findIntersectionWithVehiclePath v oi default).intersect = true ∧
        (firstPathIntersectionWithObstacleGroup (findIntersectionWithVehiclePath v)
          obs nearest next).1 = findIntersectionWithVehiclePath v oi default ∧
        (∀ o ∈ obs, (findIntersectionWithVehiclePath v o default).intersect = true →
          (findIntersectionWithVehiclePath v oi default).distance ≤
            (findIntersectionWithVehiclePath v o default).distance) ∧
        (∀ o ∈ pre, (findIntersectionWithVehiclePath v o default).intersect = true →
          (findIntersectionWithVehiclePath v oi default).distance <
            (findIntersectionWithVehiclePath v o default).distance)) := by
  have hmain := scan_go_false (findIntersectionWithVehiclePath v)
    (findIntersection_stable v) obs
    ({ nearest with intersect := false }, { next with intersect := false }) rfl
  simp only [firstPathIntersectionWithObstacleGroup]
  constructor
  · intro hall
    rcases hmain with ⟨hflag, _⟩ | ⟨pre, oi, post, hsplit, hoihit, _, _, _⟩
    · exact hflag
    · exfalso
      have hoi : oi ∈ obs := by
        rw [hsplit]
        exact List.mem_append_right _ (List.mem_cons_self _ _)
      rw [hall oi hoi] at hoihit
      exact absurd hoihit (by simp)
  · rintro ⟨o, ho, hohit⟩
    rcases hmain with ⟨_, hnone⟩ | hrep
    · rw [hnone o ho] at hohit
      exact absurd hohit (by simp)
    · exact hrep

/-- C2 counterexample: with `maxForce = 0`, an imminent intersection with a
genuinely lateral steering hint still produces the zero vector, so "returns
the zero vector if and only if intersect is false or distance is beyond the
horizon" fails in the only-if direction. -/
theorem C2_counterexample :
    ¬ ((steerToAvoidIfNeeded ⟨true, none, 0, 0, 0, ⟨1, 0, 0⟩⟩
          ⟨⟨0, 0, 0⟩, ⟨1, 0, 0⟩, ⟨0, 1, 0⟩, ⟨0, 0, 1⟩, 1, 0, 0⟩ 1 = 0) ↔
        ((⟨true, none, 0, 0, 0, ⟨1, 0, 0⟩⟩ : PathIntersection).intersect = false ∨
          (1 : ℝ) *
            (⟨⟨0, 0, 0⟩, ⟨1, 0, 0⟩, ⟨0, 1, 0⟩, ⟨0, 0, 1⟩, 1, 0, 0⟩ :
              AbstractVehicle).speed ≤
            (⟨true, none, 0, 0, 0, ⟨1, 0, 0⟩⟩ : PathIntersection).distance)) := by
  intro hiff
  have hz : steerToAvoidIfNeeded ⟨true, none, 0, 0, 0, ⟨1, 0, 0⟩⟩
      ⟨⟨0, 0, 0⟩, ⟨1, 0, 0⟩, ⟨0, 1, 0⟩, ⟨0, 0, 1⟩, 1, 0, 0⟩ 1 = 0 := by
    simp only [steerToAvoidIfNeeded, Vec3.perpendicularComponent,
      Vec3.parallelComponent, Vec3.dot, Vec3.smul_def, Vec3.sub_def,
      Vec3.normalize, Vec3.length]
    norm_num [Real.sqrt_one]
    rfl
  rcases hiff.mp hz with hfalse | hge
  · exact absurd hfalse (by simp)
  · norm_num at hge

/-- C2 amended: the heuristic returns zero whenever there is no intersection
or the distance is at or beyond the collision horizon, and otherwise returns
the perpendicular component of the steering hint, normalized and scaled by
the maximum force; that return value is nonzero — making the claimed
equivalence hold — once the perpendicular component is nonzero and the
maximum force is nonzero. -/
theorem C2_steer_spec (pi : PathIntersection) (vehicle : AbstractVehicle)
    (minTimeToCollision : ℝ) :
    ((pi.intersect = false ∨ minTimeToCollision * vehicle.speed ≤ pi.distance) →
      steerToAvoidIfNeeded pi vehicle minTimeToCollision = 0)
    ∧ (pi.intersect = true → pi.distance < minTimeToCollision * vehicle.speed →
      steerToAvoidIfNeeded pi vehicle minTimeToCollision =
        (pi.steerHint.perpendicularComponent vehicle.forward).normalize *
          vehicle.maxForce)
    ∧ (pi.steerHint.perpendicularComponent vehicle.forward ≠ 0 →
      vehicle.maxForce ≠ 0 →
      (steerToAvoidIfNeeded pi vehicle minTimeToCollision = 0 ↔
        (pi.intersect = false ∨ minTimeToCollision * vehicle.speed ≤ pi.distance))) := by
  have ha : (pi.intersect = false ∨ minTimeToCollision * vehicle.speed ≤ pi.distance) →
      steerToAvoidIfNeeded pi vehicle minTimeToCollision = 0 := by
    intro hcond
    simp only [steerToAvoidIfNeeded]
    rw [if_neg]
    rintro ⟨h1, h2⟩
    rcases hcond with hf | hge
    · rw [hf] at h1
      exact absurd h1 (by simp)
    · exact absurd h2 (not_lt.mpr hge)
  have hb : pi.intersect = true → pi.distance < minTimeToCollision * vehicle.speed →
      steerToAvoidIfNeeded pi vehicle minTimeToCollision =
        (pi.steerHint.perpendicularComponent vehicle.forward).normalize *
          vehicle.maxForce := by
    intro h1 h2
    simp only [steerToAvoidIfNeeded]
    rw [if_pos ⟨h1, h2⟩]
  refine ⟨ha, hb, ?_⟩
  intro hlat hforce
  constructor
  · intro hzero
    by_contra hcon
    push_neg at hcon
    obtain ⟨h1, h2⟩ := hcon
    have h1t : pi.intersect = true := by
      cases hbool : pi.intersect
      · exact absurd hbool h1
      · rfl
    rw [hb h1t h2] at hzero
    exact Vec3.smul_ne_zero_of_ne _ _
      (Vec3.normalize_ne_zero _ hlat) hforce hzero
  · exact ha

/-- C2 witness (for the amended claim): a concrete imminent intersection with
a lateral hint and positive maximum force, where the returned force is the
stated formula and the equivalence is exercised. -/
theorem C2_steer_spec_witness :
    steerToAvoidIfNeeded ⟨true, none, 0, 0, 0, ⟨1, 0, 0⟩⟩
      ⟨⟨0, 0, 0⟩, ⟨1, 0, 0⟩, ⟨0, 1, 0⟩, ⟨0, 0, 1⟩, 1, 0, 2⟩ 1 =
      ((⟨true, none, 0, 0, 0, ⟨1, 0, 0⟩⟩ :
          PathIntersection).steerHint.perpendicularComponent ⟨0, 0, 1⟩).normalize *
        (2 : ℝ) :=
  (C2_steer_spec ⟨true, none, 0, 0, 0, ⟨1, 0, 0⟩⟩
    ⟨⟨0, 0, 0⟩, ⟨1, 0, 0⟩, ⟨0, 1, 0⟩, ⟨0, 0, 1⟩, 1, 0, 2⟩ 1).2.1 rfl (by norm_num)

/-- C3 counterexample: a steering hint aligned with the vehicle's forward
axis has a zero perpendicular component; the returned vector then has length
0, not `maxForce`, even though the intersection is imminent. -/
theorem C3_counterexample :
    (⟨true, none, 0, 0, 0, ⟨0, 0, 1⟩⟩ : PathIntersection).intersect = true ∧
    (⟨true, none, 0, 0, 0, ⟨0, 0, 1⟩⟩ : PathIntersection).distance <
      1 * (⟨⟨0, 0, 0⟩, ⟨1, 0, 0⟩, ⟨0, 1, 0⟩, ⟨0, 0, 1⟩, 1, 0, 1⟩ :
        AbstractVehicle).speed ∧
    (steerToAvoidIfNeeded ⟨true, none, 0, 0, 0, ⟨0, 0, 1⟩⟩
        ⟨⟨0, 0, 0⟩, ⟨1, 0, 0⟩, ⟨0, 1, 0⟩, ⟨0, 0, 1⟩, 1, 0, 1⟩ 1).length ≠
      (⟨⟨0, 0, 0⟩, ⟨1, 0, 0⟩, ⟨0, 1, 0⟩, ⟨0, 0, 1⟩, 1, 0, 1⟩ :
        AbstractVehicle).maxForce := by
  refine ⟨rfl, by norm_num, ?_⟩
  have hz : steerToAvoidIfNeeded ⟨true, none, 0, 0, 0, ⟨0, 0, 1⟩⟩
      ⟨⟨0, 0, 0⟩, ⟨1, 0, 0⟩, ⟨0, 1, 0⟩, ⟨0, 0, 1⟩, 1, 0, 1⟩ 1 = 0 := by
    simp only [steerToAvoidIfNeeded, Vec3.perpendicularComponent,
      Vec3.parallelComponent, Vec3.dot, Vec3.smul_def, Vec3.sub_def,
      Vec3.normalize, Vec3.length]
    norm_num
    rfl
  rw [hz]
  simp only [Vec3.length, Vec3.zero_def, Vec3.dot]
  norm_num

/-- C3 amended: under an imminent intersection, provided the vehicle's
forward vector is unit length, the steering hint has a nonzero perpendicular
component, and the maximum force is nonnegative, the returned vector has
length exactly `maxForce` and zero dot product with `forward`. -/
theorem C3_lateral_force (pi : PathIntersection) (vehicle : AbstractVehicle)
    (minTimeToCollision : ℝ)
    (hunit : vehicle.forward.length = 1)
    (hlat : pi.steerHint.perpendicularComponent vehicle.forward ≠ 0)
    (hforce : 0 ≤ vehicle.maxForce)
    (hhit : pi.intersect = true)
    (hnear : pi.distance < minTimeToCollision * vehicle.speed) :
    (steerToAvoidIfNeeded pi vehicle minTimeToCollision).length = vehicle.maxForce ∧
    (steerToAvoidIfNeeded pi vehicle minTimeToCollision).dot vehicle.forward = 0 := by
  have hval : steerToAvoidIfNeeded pi vehicle minTimeToCollision =
      (pi.steerHint.perpendicularComponent vehicle.forward).normalize *
        vehicle.maxForce := by
    simp only [steerToAvoidIfNeeded]
    rw [if_pos ⟨hhit, hnear⟩]
  rw [hval]
  constructor
  · rw [Vec3.length_smul, Vec3.length_normalize _ hlat, abs_of_nonneg hforce]
    ring
  · rw [Vec3.smul_dot, Vec3.normalize_eq_smul, Vec3.smul_dot,
      Vec3.perp_dot_eq_zero _ _ hunit]
    ring

/-- C3 witness: a lateral hint perpendicular to a unit forward axis with
`maxForce = 2`: the returned force has length 2 and zero forward dot. -/
theorem C3_lateral_force_witness :
    (steerToAvoidIfNeeded ⟨true, none, 0, 0, 0, ⟨1, 0, 0⟩⟩
      ⟨⟨0, 0, 0⟩, ⟨1, 0, 0⟩, ⟨0, 1, 0⟩, ⟨0, 0, 1⟩, 1, 0, 2⟩ 1).length =
      (⟨⟨0, 0, 0⟩, ⟨1, 0, 0⟩, ⟨0, 1, 0⟩, ⟨0, 0, 1⟩, 1, 0, 2⟩ :
        AbstractVehicle).maxForce ∧
    (steerToAvoidIfNeeded ⟨true, none, 0, 0, 0, ⟨1, 0, 0⟩⟩
      ⟨⟨0, 0, 0⟩, ⟨1, 0, 0⟩, ⟨0, 1, 0⟩, ⟨0, 0, 1⟩, 1, 0, 2⟩ 1).dot ⟨0, 0, 1⟩ = 0 :=
  C3_lateral_force ⟨true, none, 0, 0, 0, ⟨1, 0, 0⟩⟩
    ⟨⟨0, 0, 0⟩, ⟨1, 0, 0⟩, ⟨0, 1, 0⟩, ⟨0, 0, 1⟩, 1, 0, 2⟩ 1
    (by simp only [Vec3.length, Vec3.dot]; norm_num)
    (by
      simp only [Vec3.perpendicularComponent, Vec3.parallelComponent, Vec3.dot,
        Vec3.smul_def, Vec3.sub_def, Vec3.zero_def]
      intro hcon
      have := congrArg Vec3.x hcon
      norm_num at this)
    (by norm_num) rfl (by norm_num)

/-- C7 counterexample: in a scan iteration where no intersection has been
stored yet (`nearest.intersect = false`), an obstacle that reports no
intersection still overwrites `nearest` with the scratch record — here the
two records differ in their (stale) `distance` fields, 5 against 7. -/
theorem C7_counterexample :
    (findIntersectionWithVehiclePath
        ⟨⟨0, 0, 0⟩, ⟨1, 0, 0⟩, ⟨0, 1, 0⟩, ⟨0, 0, 1⟩, 1, 0, 1⟩
        (Obstacle.sphere 1 ⟨100, 0, 0⟩ seenFromState.outside)
        ⟨false, none, 7, 0, 0, 0⟩).intersect = false ∧
    (scanStep (findIntersectionWithVehiclePath
        ⟨⟨0, 0, 0⟩, ⟨1, 0, 0⟩, ⟨0, 1, 0⟩, ⟨0, 0, 1⟩, 1, 0, 1⟩)
        (⟨false, none, 5, 0, 0, 0⟩, ⟨false, none, 7, 0, 0, 0⟩)
        (Obstacle.sphere 1 ⟨100, 0, 0⟩ seenFromState.outside)).1 ≠
      ⟨false, none, 5, 0, 0, 0⟩ := by
  have hfar : findIntersectionWithVehiclePath
      ⟨⟨0, 0, 0⟩, ⟨1, 0, 0⟩, ⟨0, 1, 0⟩, ⟨0, 0, 1⟩, 1, 0, 1⟩
      (Obstacle.sphere 1 ⟨100, 0, 0⟩ seenFromState.outside)
      ⟨false, none, 7, 0, 0, 0⟩ = ⟨false, none, 7, 0, 0, 0⟩ := by
    simp only [findIntersectionWithVehiclePath, sphericalFind, sphereQuadB,
      sphereQuadC, AbstractVehicle.localizePosition, localizePositionIn,
      localizeDirectionIn, Vec3.dot, Vec3.sub_def, square]
    norm_num
  refine ⟨by rw [hfar], ?_⟩
  simp only [scanStep, hfar]
  rw [if_pos (Or.inl trivial)]
  intro hcon
  have := congrArg PathIntersection.distance hcon
  norm_num at this

/-- C7 amended: an obstacle reporting no intersection never changes the
`intersect` flag of `nearest`, and whenever `nearest` already holds an
intersection it leaves the whole record unchanged.  (Before any intersection
is found, the loop does copy the — equally non-intersecting — scratch record
over `nearest`, which is what the original claim overlooked.) -/
theorem C7_no_intersection_preserves (v : AbstractVehicle) (o : Obstacle)
    (st : PathIntersection × PathIntersection)
    (h : (findIntersectionWithVehiclePath v o st.2).intersect = false) :
    ((scanStep (findIntersectionWithVehiclePath v) st o).1.intersect =
      st.1.intersect) ∧
    (st.1.intersect = true →
      (scanStep (findIntersectionWithVehiclePath v) st o).1 = st.1) := by
  simp only [scanStep]
  by_cases hn : st.1.intersect = false
  · rw [if_pos (Or.inl hn)]
    exact ⟨by rw [h, hn], fun hcon => absurd hcon (by simp [hn])⟩
  · rw [if_neg]
    · exact ⟨rfl, fun _ => rfl⟩
    · rintro (hc | ⟨hc, _⟩)
      · exact hn hc
      · rw [h] at hc
        exact absurd hc (by simp)

/-- C7 witness: with `nearest` already holding an intersection at distance 3,
a far-away sphere that reports no intersection leaves it untouched. -/
theorem C7_no_intersection_preserves_witness :
    ((scanStep (findIntersectionWithVehiclePath
        ⟨⟨0, 0, 0⟩, ⟨1, 0, 0⟩, ⟨0, 1, 0⟩, ⟨0, 0, 1⟩, 1, 0, 1⟩)
        (⟨true, none, 3, 0, 0, 0⟩, ⟨false, none, 7, 0, 0, 0⟩)
        (Obstacle.sphere 1 ⟨100, 0, 0⟩ seenFromState.inside)).1.intersect =
      (⟨true, none, 3, 0, 0, 0⟩ : PathIntersection).intersect) ∧
    ((⟨true, none, 3, 0, 0, 0⟩ : PathIntersection).intersect = true →
      (scanStep (findIntersectionWithVehiclePath
        ⟨⟨0, 0, 0⟩, ⟨1, 0, 0⟩, ⟨0, 1, 0⟩, ⟨0, 0, 1⟩, 1, 0, 1⟩)
        (⟨true, none, 3, 0, 0, 0⟩, ⟨false, none, 7, 0, 0, 0⟩)
        (Obstacle.sphere 1 ⟨100, 0, 0⟩ seenFromState.inside)).1 =
      ⟨true, none, 3, 0, 0, 0⟩) :=
  C7_no_intersection_preserves
    ⟨⟨0, 0, 0⟩, ⟨1, 0, 0⟩, ⟨0, 1, 0⟩, ⟨0, 0, 1⟩, 1, 0, 1⟩
    (Obstacle.sphere 1 ⟨100, 0, 0⟩ seenFromState.inside)
    (⟨true, none, 3, 0, 0, 0⟩, ⟨false, none, 7, 0, 0, 0⟩)
    (by
      simp only [findIntersectionWithVehiclePath, sphericalFind, sphereQuadB,
        sphereQuadC, AbstractVehicle.localizePosition, localizePositionIn,
        localizeDirectionIn, Vec3.dot, Vec3.sub_def, square]
      norm_num)

/-- C6 witness: a vehicle moving along +X past a rectangle whose plane normal
is +Z: the localized direction's Z component is concretely zero. -/
theorem C6_parallel_path_witness :
    rectangleFind 10 10 ⟨1, 0, 0⟩ ⟨0, 1, 0⟩ ⟨0, 0, 1⟩ ⟨0, 0, 5⟩ seenFromState.outside
      ⟨⟨0, 0, 0⟩, ⟨0, 0, -1⟩, ⟨0, 1, 0⟩, ⟨1, 0, 0⟩, 1, 0, 1⟩ default =
      { (default : PathIntersection) with intersect := false } :=
  C6_parallel_path 10 10 ⟨1, 0, 0⟩ ⟨0, 1, 0⟩ ⟨0, 0, 1⟩ ⟨0, 0, 5⟩ seenFromState.outside
    ⟨⟨0, 0, 0⟩, ⟨0, 0, -1⟩, ⟨0, 1, 0⟩, ⟨1, 0, 0⟩, 1, 0, 1⟩ default
    (by norm_num [localizeDirectionIn, Vec3.dot])

/-- C9 counterexample: a vehicle sitting exactly at the center of a solid
sphere: the query reports a hit at distance 0, the surface point coincides
with the center, and the written surface normal is the zero vector (length
0, not 1). -/
theorem C9_counterexample :
    (findIntersectionWithVehiclePath
      ⟨⟨0, 0, 0⟩, ⟨1, 0, 0⟩, ⟨0, 1, 0⟩, ⟨0, 0, 1⟩, 1, 0, 1⟩
      (Obstacle.sphere 2 ⟨0, 0, 0⟩ seenFromState.outside) default).intersect = true ∧
    (findIntersectionWithVehiclePath
      ⟨⟨0, 0, 0⟩, ⟨1, 0, 0⟩, ⟨0, 1, 0⟩, ⟨0, 0, 1⟩, 1, 0, 1⟩
      (Obstacle.sphere 2 ⟨0, 0, 0⟩ seenFromState.outside)
      default).surfaceNormal.length ≠ 1 := by
  have h16 : Real.sqrt 16 = 4 := sqrt_of_sq 16 4 (by norm_num) (by norm_num)
  have heval : findIntersectionWithVehiclePath
      ⟨⟨0, 0, 0⟩, ⟨1, 0, 0⟩, ⟨0, 1, 0⟩, ⟨0, 0, 1⟩, 1, 0, 1⟩
      (Obstacle.sphere 2 ⟨0, 0, 0⟩ seenFromState.outside) default =
      { intersect := true
        obstacle := some (Obstacle.sphere 2 ⟨0, 0, 0⟩ seenFromState.outside)
        distance := 0
        surfacePoint := ⟨0, 0, 0⟩
        surfaceNormal := ⟨0, 0, 0⟩
        steerHint := ⟨0, 0, 0⟩ } := by
    simp only [findIntersectionWithVehiclePath, sphericalFind, sphereQuadB,
      sphereQuadC, sphereRootP, sphereRootQ, AbstractVehicle.localizePosition,
      localizePositionIn, localizeDirectionIn, Vec3.dot, Vec3.sub_def,
      Vec3.add_def, Vec3.smul_def, square, Vec3.normalize, Vec3.length]
    norm_num [h16]
  rw [heval]
  refine ⟨rfl, ?_⟩
  simp only [Vec3.length, Vec3.dot]
  norm_num

/-- C9 amended: the surface normal written on a hit is unit length, provided
the degenerate cases are excluded: for a sphere the computed surface point
must differ from the center (otherwise the normalized zero vector is
written), and rectangle/box frames must carry unit axes. -/
theorem C9_surface_normal_unit (v : AbstractVehicle) (o : Obstacle)
    (pi0 : PathIntersection)
    (hframe : match o with
      | Obstacle.sphere _ center _ =>
          (findIntersectionWithVehiclePath v o pi0).surfacePoint ≠ center
      | Obstacle.rectangle _ _ _ _ f _ _ => f.length = 1
      | Obstacle.box _ _ _ s u f _ _ =>
          s.length = 1 ∧ u.length = 1 ∧ f.length = 1)
    (hhit : (findIntersectionWithVehiclePath v o pi0).intersect = true) :
    (findIntersectionWithVehiclePath v o pi0).surfaceNormal.length = 1 := by
  match o with
  | Obstacle.sphere radius center sf =>
    simp only [findIntersectionWithVehiclePath] at hframe hhit ⊢
    simp only [sphericalFind] at hframe hhit ⊢
    split_ifs at hframe hhit ⊢ <;>
      first
        | (simp at hhit
           done)
        | (refine Vec3.length_normalize _ (Vec3.sub_ne_zero_of_ne _ _ ?_)
           exact hframe)
  | Obstacle.rectangle w h s u f p sf =>
    exact rectangleFind_normal_unit w h s u f p sf v pi0 hframe hhit
  | Obstacle.box w h d s u f p sf =>
    obtain ⟨hs, hu, hf⟩ := hframe
    simp only [findIntersectionWithVehiclePath, boxFind,
      firstPathIntersectionWithObstacleGroup] at hhit ⊢
    rcases scan_go_false (rectFaceFind v) (rectFaceFind_stable v)
        (boxFaces w h d s u f p)
        ({ pi0 with intersect := false },
          { (default : PathIntersection) with intersect := false }) rfl with
      ⟨hflag, _⟩ | ⟨pre, oi, post, hsplit, hoihit, hfold, _, _⟩
    · rw [hflag] at hhit
      exact absurd hhit (by simp)
    · rw [hfold] at hhit ⊢
      have hoi : oi ∈ boxFaces w h d s u f p := by
        rw [hsplit]
        exact List.mem_append_right _ (List.mem_cons_self _ _)
      simp only [boxFaces, List.mem_cons, List.not_mem_nil, or_false] at hoi
      rcases hoi with rfl | rfl | rfl | rfl | rfl | rfl <;>
        first
          | exact rectangleFind_normal_unit _ _ _ _ _ _ _ _ _ hf hhit
          | exact rectangleFind_normal_unit _ _ _ _ _ _ _ _ _
              (by rw [Vec3.neg_length]; exact hf) hhit
          | exact rectangleFind_normal_unit _ _ _ _ _ _ _ _ _ hs hhit
          | exact rectangleFind_normal_unit _ _ _ _ _ _ _ _ _
              (by rw [Vec3.neg_length]; exact hs) hhit
          | exact rectangleFind_normal_unit _ _ _ _ _ _ _ _ _ hu hhit
          | exact rectangleFind_normal_unit _ _ _ _ _ _ _ _ _
              (by rw [Vec3.neg_length]; exact hu) hhit

/-- C9 witness: the (0,0,10)-sphere query from a vehicle at the origin: the
surface point (0,0,9) differs from the center and the reported surface
normal has length 1. -/
theorem C9_surface_normal_unit_witness :
    (findIntersectionWithVehiclePath
      ⟨⟨0, 0, 0⟩, ⟨1, 0, 0⟩, ⟨0, 1, 0⟩, ⟨0, 0, 1⟩, 0, 0, 1⟩
      (Obstacle.sphere 1 ⟨0, 0, 10⟩ seenFromState.outside)
      default).surfaceNormal.length = 1 := by
  have h4 : Real.sqrt 4 = 2 := sqrt_of_sq 4 2 (by norm_num) (by norm_num)
  have heval : findIntersectionWithVehiclePath
      ⟨⟨0, 0, 0⟩, ⟨1, 0, 0⟩, ⟨0, 1, 0⟩, ⟨0, 0, 1⟩, 0, 0, 1⟩
      (Obstacle.sphere 1 ⟨0, 0, 10⟩ seenFromState.outside) default =
      { intersect := true
        obstacle := some (Obstacle.sphere 1 ⟨0, 0, 10⟩ seenFromState.outside)
        distance := 9
        surfacePoint := ⟨0, 0, 9⟩
        surfaceNormal := ⟨0, 0, -1⟩
        steerHint := ⟨0, 0, -1⟩ } := by
    simp only [findIntersectionWithVehiclePath, sphericalFind, sphereQuadB,
      sphereQuadC, sphereRootP, sphereRootQ, AbstractVehicle.localizePosition,
      localizePositionIn, localizeDirectionIn, Vec3.dot, Vec3.sub_def,
      Vec3.add_def, Vec3.smul_def, square, Vec3.normalize, Vec3.length]
    norm_num [h4, Real.sqrt_one]
  exact C9_surface_normal_unit
    ⟨⟨0, 0, 0⟩, ⟨1, 0, 0⟩, ⟨0, 1, 0⟩, ⟨0, 0, 1⟩, 0, 0, 1⟩
    (Obstacle.sphere 1 ⟨0, 0, 10⟩ seenFromState.outside) default
    (by
      rw [heval]
      intro hcon
      have := congrArg Vec3.z hcon
      norm_num at this)
    (by rw [heval])

/-- C8: a vehicle aimed squarely at the front face of a box (its position
offset from the box center by `a`,`b` across the face and `t` along the
face's outward normal, moving straight at the face, with the offsets inside
the vehicle-radius-bloated face extents) gets from
`BoxObstacle::findIntersectionWithVehiclePath` exactly the record a
standalone `RectangleObstacle` with that face's dimensions, orientation and
position produces. -/
theorem C8_box_face_equivalence (w h d t a b : ℝ) (s u f p : Vec3)
    (vehicle : AbstractVehicle) (pi0 pi1 : PathIntersection)
    (hss : s.dot s = 1) (huu : u.dot u = 1) (hff : f.dot f = 1)
    (hsu : s.dot u = 0) (hsf : s.dot f = 0) (huf : u.dot f = 0)
    (hpos : vehicle.position = p + s * a + u * b + f * t)
    (hfwd : vehicle.forward = -f)
    (hd : 0 < d) (ht : d * 0.5 < t)
    (ha : |a| ≤ vehicle.radius + w * 0.5)
    (hb : |b| ≤ vehicle.radius + h * 0.5) :
    boxFind w h d s u f p vehicle pi0 =
      rectangleFind w h s u f (p + f * (0.5 * d)) seenFromState.outside
        vehicle pi1 := by
  have hfs : f.dot s = 0 := by rw [Vec3.dot_comm]; exact hsf
  have hfu : f.dot u = 0 := by rw [Vec3.dot_comm]; exact huf
  have hz0 : 0 < t - d * 0.5 := by linarith
  have hrel1 : vehicle.position - (p + f * (0.5 * d)) =
      s * a + u * b + f * (t - d * 0.5) := by
    rw [hpos]
    ext <;> simp only [Vec3.add_def, Vec3.sub_def, Vec3.smul_def] <;> ring
  have hhead := fun pi2 => rectangleFind_head_on w h a b (t - d * 0.5) s u f
    (p + f * (0.5 * d)) vehicle pi2 hss huu hff hsu hsf huf hfwd hrel1 hz0 ha hb
  have hr1 : ∀ pi2, rectFaceFind vehicle
      (Obstacle.rectangle w h s u f (p + f * (0.5 * d)) seenFromState.outside) pi2 =
      rectangleFind w h s u f (p + f * (0.5 * d)) seenFromState.outside
        vehicle pi1 := fun pi2 => by
    simp only [rectFaceFind]
    exact (hhead pi2).trans (hhead pi1).symm
  have hRtrue : (rectangleFind w h s u f (p + f * (0.5 * d)) seenFromState.outside
      vehicle pi1).intersect = true := by rw [hhead pi1]
  have hrel2 : vehicle.position - (p - f * (0.5 * d)) =
      s * a + u * b + f * (t + d * 0.5) := by
    rw [hpos]
    ext <;> simp only [Vec3.add_def, Vec3.sub_def, Vec3.smul_def] <;> ring
  have hr2 : ∀ pi2, rectFaceFind vehicle
      (Obstacle.rectangle w h (-s) u (-f) (p - f * (0.5 * d))
        seenFromState.outside) pi2 = { pi2 with intersect := false } := fun pi2 => by
    simp only [rectFaceFind]
    apply rectangleFind_outside_behind
    · show 0 < (localizeDirectionIn (-s) u (-f) vehicle.forward).z
      simp only [localizeDirectionIn, hfwd, Vec3.neg_dot, Vec3.dot_neg, hff]
      norm_num
    · show (localizePositionIn (-s) u (-f) (p - f * (0.5 * d))
        vehicle.position).z < 0
      simp only [localizePositionIn, localizeDirectionIn, hrel2, Vec3.dot_neg,
        Vec3.comb_dot, hsf, huf, hff]
      linarith
  have hr3 : ∀ pi2, rectFaceFind vehicle
      (Obstacle.rectangle d h (-f) u s (p + s * (0.5 * w))
        seenFromState.outside) pi2 = { pi2 with intersect := false } := fun pi2 => by
    simp only [rectFaceFind]
    apply rectangleFind_parallel
    show (localizeDirectionIn (-f) u s vehicle.forward).z = 0
    simp only [localizeDirectionIn, hfwd, Vec3.neg_dot, hfs]
    norm_num
  have hr4 : ∀ pi2, rectFaceFind vehicle
      (Obstacle.rectangle d h f u (-s) (p - s * (0.5 * w))
        seenFromState.outside) pi2 = { pi2 with intersect := false } := fun pi2 => by
    simp only [rectFaceFind]
    apply rectangleFind_parallel
    show (localizeDirectionIn f u (-s) vehicle.forward).z = 0
    simp only [localizeDirectionIn, hfwd, Vec3.neg_dot, Vec3.dot_neg, hfs]
    norm_num
  have hr5 : ∀ pi2, rectFaceFind vehicle
      (Obstacle.rectangle w d s (-f) u (p + u * (0.5 * h))
        seenFromState.outside) pi2 = { pi2 with intersect := false } := fun pi2 => by
    simp only [rectFaceFind]
    apply rectangleFind_parallel
    show (localizeDirectionIn s (-f) u vehicle.forward).z = 0
    simp only [localizeDirectionIn, hfwd, Vec3.neg_dot, hfu]
    norm_num
  have hr6 : ∀ pi2, rectFaceFind vehicle
      (Obstacle.rectangle w d (-s) (-f) (-u) (p - u * (0.5 * h))
        seenFromState.outside) pi2 = { pi2 with intersect := false } := fun pi2 => by
    simp only [rectFaceFind]
    apply rectangleFind_parallel
    show (localizeDirectionIn (-s) (-f) (-u) vehicle.forward).z = 0
    simp only [localizeDirectionIn, hfwd, Vec3.neg_dot, Vec3.dot_neg, hfu]
    norm_num
  simp only [boxFind, firstPathIntersectionWithObstacleGroup, boxFaces]
  rw [List.foldl_cons, scanStep_first _ _ _ rfl, hr1 _]
  rw [List.foldl_cons, scanStep_keep _ _ _ hRtrue (by rw [hr2 _])]
  rw [List.foldl_cons, scanStep_keep _ _ _ hRtrue (by rw [hr3 _])]
  rw [List.foldl_cons, scanStep_keep _ _ _ hRtrue (by rw [hr4 _])]
  rw [List.foldl_cons, scanStep_keep _ _ _ hRtrue (by rw [hr5 _])]
  rw [List.foldl_cons, scanStep_keep _ _ _ hRtrue (by rw [hr6 _])]
  rw [List.foldl_nil]

/-- C8 witness: a concrete 2-by-2-by-2 axis-aligned box at the origin and a
vehicle one unit in front of its front face, aimed straight at it. -/
theorem C8_box_face_equivalence_witness :
    boxFind 2 2 2 ⟨1, 0, 0⟩ ⟨0, 1, 0⟩ ⟨0, 0, 1⟩ ⟨0, 0, 0⟩
      ⟨⟨0, 0, 2⟩, ⟨1, 0, 0⟩, ⟨0, 1, 0⟩, ⟨0, 0, -1⟩, 1, 0, 1⟩ default =
      rectangleFind 2 2 ⟨1, 0, 0⟩ ⟨0, 1, 0⟩ ⟨0, 0, 1⟩
        (⟨0, 0, 0⟩ + (⟨0, 0, 1⟩ : Vec3) * ((0.5 : ℝ) * 2)) seenFromState.outside
        ⟨⟨0, 0, 2⟩, ⟨1, 0, 0⟩, ⟨0, 1, 0⟩, ⟨0, 0, -1⟩, 1, 0, 1⟩ default :=
  C8_box_face_equivalence 2 2 2 2 0 0 ⟨1, 0, 0⟩ ⟨0, 1, 0⟩ ⟨0, 0, 1⟩ ⟨0, 0, 0⟩
    ⟨⟨0, 0, 2⟩, ⟨1, 0, 0⟩, ⟨0, 1, 0⟩, ⟨0, 0, -1⟩, 1, 0, 1⟩ default default
    (by norm_num [Vec3.dot]) (by norm_num [Vec3.dot]) (by norm_num [Vec3.dot])
    (by norm_num [Vec3.dot]) (by norm_num [Vec3.dot]) (by norm_num [Vec3.dot])
    (by ext <;> norm_num) (by ext <;> norm_num)
    (by norm_num) (by norm_num) (by norm_num) (by norm_num)

/-- C10: the box query never reads the box's own `seenFrom` tag — the six
synthesized faces are built without it — so two boxes differing only in
that tag produce identical results for every vehicle and incoming record. -/
theorem C10_box_ignores_seenFrom (v : AbstractVehicle) (w h d : ℝ)
    (s u f p : Vec3) (sf1 sf2 : seenFromState) (pi0 : PathIntersection) :
    findIntersectionWithVehiclePath v (Obstacle.box w h d s u f p sf1) pi0 =
      findIntersectionWithVehiclePath v (Obstacle.box w h d s u f p sf2) pi0 := rfl

end

end OpenSteer
